import Mathlib

/-!
Verification of the transaction manager of the doris storage node
(src/be/src/olap/txn_manager.cpp), shallowly embedded in Lean 4.

The in-memory transaction index (two sharded maps: txn_tablet_map and
txn_partition_map) and the durable rowset-meta store (RowsetMetaManager,
a key/value store keyed by (tablet_uid, rowset_id)) are modelled with
association lists.  C++ std::map / std::unordered_map semantics are
modelled by lookup of the first matching key, insert-or-replace, and
erase of all pairs with the given key (reachable states never hold
duplicate keys, so this agrees with the unique-key container semantics).

Sharding: the per-shard maps are modelled as one global association list;
a key belongs to shard (txn_id mod shard_count).  Since the shard of a key
is a function of the key, every per-shard lookup/insert/erase coincides
with the global one; the only place the shard structure is observable is
the size check of prepare_txn, which counts only the entries of the shard
of the given transaction (partition_shard_size below).  For a power of two
shard count, the C++ shard selector (txn_id and (count - 1)) on two's
complement int64 equals the mathematical residue txn_id mod count, which
is what Int.emod computes.

Disk writes (RowsetMetaManager::save) may fail; each operation that writes
takes a boolean oracle telling whether the write succeeds.  Wall-clock
reads (UnixSeconds, used for TabletTxnInfo::creation_time) are passed as an
explicit argument.  The delete-bitmap construction performed at the end of
publish_txn for merge-on-write unique-key tablets only touches state owned
by the tablet (its delete bitmap and tablet meta), never the transaction
index or the rowset-meta store; its outcome is modelled by a status oracle
returned after the index erase.
-/

namespace DorisTxn

/-- 128-bit unique load attempt identifier (PUniqueId: hi, lo). -/
structure PUniqueId where
  hi : Int
  lo : Int
deriving DecidableEq, Repr

/-- Modelled from the spec: TabletUid is a 128-bit opaque value identifying a
physical tablet instance; only equality is used by the transaction manager. -/
structure TabletUid where
  hi : Int
  lo : Int
deriving DecidableEq, Repr

/-- Version is a pair (first, second) of 64-bit integers; a rowset is
published exactly when first > 0. -/
structure Version where
  first : Int
  second : Int
deriving DecidableEq, Repr

/-- The rowset data visible to the transaction manager: its id, its version
(mutated by make_visible at publish time) and an opaque payload standing for
the rest of the serialized rowset meta.  RowsetMetaManager::save persists
rowset_meta()->get_rowset_pb(), which is modelled as this whole value. -/
structure Rowset where
  rowset_id : Int
  version : Version
  payload : Int
deriving DecidableEq, Repr

/-- Rowset::make_visible(version) records the publish version in the
in-memory rowset meta. -/
def Rowset.make_visible (r : Rowset) (v : Version) : Rowset :=
  { r with version := v }

/-- TabletInfo = (tablet_id, schema_hash, tablet_uid); equality uses all
three fields. -/
structure TabletInfo where
  tablet_id : Int
  schema_hash : Int
  tablet_uid : TabletUid
deriving DecidableEq, Repr

/-- Modelled from the spec: TabletTxnInfo (declared in txn_manager.h, not
among the extracted sources) carries the load id, the optional committed
rowset (null after prepare, set after commit) and creation_time, which the
two-argument constructor used by prepare_txn and commit_txn sets to the
current UnixSeconds value at construction. -/
structure TabletTxnInfo where
  load_id : PUniqueId
  rowset : Option Rowset
  creation_time : Int
deriving DecidableEq, Repr

/-- TxnKey = (partition_id, transaction_id), the key of txn_tablet_map. -/
abbrev TxnKey := Int × Int

/-- The status values surfaced by the modelled operations.  OK is
Status::OK(); the error constructors name the OLAP error codes returned by
txn_manager.cpp.  Fatal models LOG(FATAL) (process abort) on the commit
precondition violation; Other stands for any status produced by the
delete-bitmap tail of publish_txn (segment loading or index errors). -/
inductive Status where
  | OK
  | TooManyTransactions
  | RowsetInvalid
  | AlreadyExists
  | AlreadyCommitted
  | TransactionNotExist
  | SaveFailed
  | Fatal
  | Other
deriving DecidableEq, Repr

/-- Process-wide configuration read by the transaction manager. -/
structure Config where
  max_runnings_transactions_per_txn_map : Nat
  txn_map_shard_size : Nat
deriving DecidableEq, Repr

/-! ### Association lists

The containers of the index and of the meta store. -/

/-- Lookup of the first binding of a key, i.e. std::map::find. -/
def alFind {K V : Type} [DecidableEq K] : List (K × V) → K → Option V
  | [], _ => none
  | (k0, v0) :: rest, k => if k0 = k then some v0 else alFind rest k

/-- Insert-or-replace, i.e. std::map::operator[] followed by assignment. -/
def alInsert {K V : Type} [DecidableEq K] : List (K × V) → K → V → List (K × V)
  | [], k, v => [(k, v)]
  | (k0, v0) :: rest, k, v =>
    if k0 = k then (k, v) :: rest else (k0, v0) :: alInsert rest k v

/-- Erase of every binding of a key, i.e. std::map::erase on the unique-key
maps arising in reachable states. -/
def alErase {K V : Type} [DecidableEq K] : List (K × V) → K → List (K × V)
  | [], _ => []
  | (k0, v0) :: rest, k =>
    if k0 = k then alErase rest k else (k0, v0) :: alErase rest k

theorem alFind_alInsert {K V : Type} [DecidableEq K] (l : List (K × V)) (k k' : K) (v : V) :
    alFind (alInsert l k v) k' = if k = k' then some v else alFind l k' := by
  induction l with
  | nil => simp [alInsert, alFind]
  | cons hd tl ih =>
    obtain ⟨k0, v0⟩ := hd
    by_cases h0 : k0 = k
    · subst h0
      by_cases h1 : k0 = k'
      · simp [alInsert, alFind, h1]
      · simp [alInsert, alFind, if_neg h1]
    · simp only [alInsert, if_neg h0, alFind]
      by_cases h1 : k0 = k'
      · subst h1
        have hkk : ¬ k = k0 := fun h => h0 h.symm
        simp [alFind, if_neg hkk]
      · simp [alFind, if_neg h1, ih]

theorem alFind_alErase {K V : Type} [DecidableEq K] (l : List (K × V)) (k k' : K) :
    alFind (alErase l k) k' = if k = k' then none else alFind l k' := by
  induction l with
  | nil => simp [alErase, alFind]
  | cons hd tl ih =>
    obtain ⟨k0, v0⟩ := hd
    by_cases h0 : k0 = k
    · subst h0
      by_cases h1 : k0 = k'
      · subst h1
        simp [alErase, alFind, ih]
      · simp [alErase, alFind, if_neg h1, ih]
    · by_cases h1 : k0 = k'
      · subst h1
        have : ¬ k = k0 := fun h => h0 h.symm
        simp [alErase, if_neg h0, alFind, if_neg this]
      · simp [alErase, if_neg h0, alFind, if_neg h1, ih]

theorem alInsert_self {K V : Type} [DecidableEq K] (l : List (K × V)) (k : K) (v : V)
    (h : alFind l k = some v) : alInsert l k v = l := by
  induction l with
  | nil => simp [alFind] at h
  | cons hd tl ih =>
    obtain ⟨k0, v0⟩ := hd
    by_cases h0 : k0 = k
    · subst h0
      simp [alFind] at h
      simp [alInsert, h]
    · simp [alFind, if_neg h0] at h
      simp [alInsert, if_neg h0, ih h]

theorem alErase_eq_nil_find {K V : Type} [DecidableEq K] (l : List (K × V)) (k k' : K)
    (h : alErase l k = []) (hk : ¬ k = k') : alFind l k' = none := by
  induction l with
  | nil => simp [alFind]
  | cons hd tl ih =>
    obtain ⟨k0, v0⟩ := hd
    by_cases h0 : k0 = k
    · subst h0
      simp [alErase] at h
      have hne : ¬ k0 = k' := hk
      simp [alFind, if_neg hne, ih h]
    · simp [alErase, if_neg h0] at h

/-! ### Transaction manager state

txn_tablet_map : TxnKey -> (TabletInfo -> TabletTxnInfo), txn_partition_map :
transaction_id -> set of partition ids (both sharded in C++, here global with
the shard recoverable from the key), plus the durable rowset-meta store of the
data dir.  rms_put_log records every RowsetMetaManager::save performed
(observable by a spy in the spec's scenarios); unused_rowsets records the
rowsets handed to StorageEngine::add_unused_rowset by delete_txn. -/
structure TxnState where
  tablet_map : List (TxnKey × List (TabletInfo × TabletTxnInfo))
  partition_map : List (Int × List Int)
  rms : List ((TabletUid × Int) × Rowset)
  rms_put_log : List (TabletUid × Int × Rowset)
  unused_rowsets : List Rowset
deriving DecidableEq, Repr

/-- The state of a freshly constructed TxnManager over an empty meta store. -/
def TxnState.init : TxnState :=
  { tablet_map := [], partition_map := [], rms := [], rms_put_log := [], unused_rowsets := [] }

/-- Lookup of the TabletTxnInfo stored for (TxnKey, TabletInfo). -/
def getEntry (st : TxnState) (key : TxnKey) (tablet_info : TabletInfo) : Option TabletTxnInfo :=
  (alFind st.tablet_map key).bind (fun inner => alFind inner tablet_info)

/-- RowsetMetaManager::save on the data dir's meta store. -/
def rms_put (st : TxnState) (tablet_uid : TabletUid) (rowset_id : Int) (meta : Rowset) :
    TxnState :=
  { st with rms := alInsert st.rms (tablet_uid, rowset_id) meta,
            rms_put_log := (tablet_uid, rowset_id, meta) :: st.rms_put_log }

/-- RowsetMetaManager::remove on the data dir's meta store (removing a missing
key succeeds and is a no-op). -/
def rms_remove (st : TxnState) (tablet_uid : TabletUid) (rowset_id : Int) : TxnState :=
  { st with rms := alErase st.rms (tablet_uid, rowset_id) }

/-- StorageEngine::add_unused_rowset: schedule the rowset files for cleanup. -/
def add_unused_rowset (st : TxnState) (r : Rowset) : TxnState :=
  { st with unused_rowsets := r :: st.unused_rowsets }

/-- TxnManager::_insert_txn_partition_map_unlocked: create the partition set of
the transaction if missing, then insert the partition id into it. -/
def insert_txn_partition_map (pm : List (Int × List Int)) (transaction_id partition_id : Int) :
    List (Int × List Int) :=
  let s := (alFind pm transaction_id).getD []
  alInsert pm transaction_id (if partition_id ∈ s then s else partition_id :: s)

/-- TxnManager::_clear_txn_partition_map_unlocked: erase the partition id from
the transaction's set, dropping the set when it becomes empty. -/
def clear_txn_partition_map (pm : List (Int × List Int)) (transaction_id partition_id : Int) :
    List (Int × List Int) :=
  match alFind pm transaction_id with
  | none => pm
  | some s =>
    let s' := s.filter (fun q => decide (q ≠ partition_id))
    if s' = [] then alErase pm transaction_id else alInsert pm transaction_id s'

/-- The common upsert of txn_tablet_map[key][tablet_info] = load_info followed
by _insert_txn_partition_map_unlocked, as performed by prepare_txn and
commit_txn under the shard write lock. -/
def upsert_tablet_txn (st : TxnState) (key : TxnKey) (tablet_info : TabletInfo)
    (load_info : TabletTxnInfo) : TxnState :=
  let inner := (alFind st.tablet_map key).getD []
  { st with tablet_map := alInsert st.tablet_map key (alInsert inner tablet_info load_info),
            partition_map := insert_txn_partition_map st.partition_map key.2 key.1 }

/-- The erase of it->second.erase(tablet_info) followed, when the inner map
became empty, by erasing the TxnKey and clearing the partition map, shared by
publish_txn, rollback_txn, delete_txn and force_rollback_tablet_related_txns. -/
def erase_tablet_from_txn (st : TxnState) (key : TxnKey) (tablet_info : TabletInfo) : TxnState :=
  match alFind st.tablet_map key with
  | none => st
  | some inner =>
    let inner' := alErase inner tablet_info
    if inner' = [] then
      { st with tablet_map := alErase st.tablet_map key,
                partition_map := clear_txn_partition_map st.partition_map key.2 key.1 }
    else
      { st with tablet_map := alInsert st.tablet_map key inner' }

/-- The in-place update of the shared rowset performed by make_visible during
publish_txn: the map entry holds a shared pointer to the rowset, so recording
the version is observable through the map. -/
def set_entry_rowset (st : TxnState) (key : TxnKey) (tablet_info : TabletInfo) (r : Rowset) :
    TxnState :=
  match alFind st.tablet_map key with
  | none => st
  | some inner =>
    match alFind inner tablet_info with
    | none => st
    | some li =>
      { st with tablet_map :=
          alInsert st.tablet_map key (alInsert inner tablet_info { li with rowset := some r }) }

/-- Size of the txn_partition_map shard holding the given transaction: the
number of transactions of that shard having a nonempty partition set. -/
def partition_shard_size (cfg : Config) (st : TxnState) (transaction_id : Int) : Nat :=
  (st.partition_map.filter (fun q =>
    decide (q.1 % (cfg.txn_map_shard_size : Int) =
            transaction_id % (cfg.txn_map_shard_size : Int)))).length

/-! ### The five state-machine operations of TxnManager -/

/-- The early-return test of prepare_txn: an entry for (TxnKey, TabletInfo)
exists, its load id equals the request's and it already carries a committed
rowset. -/
def prepare_found_committed (st : TxnState) (key : TxnKey) (tablet_info : TabletInfo)
    (load_id : PUniqueId) : Bool :=
  match getEntry st key tablet_info with
  | some li => decide (li.load_id = load_id) && li.rowset.isSome
  | none => false

/-- TxnManager::prepare_txn.  now is the UnixSeconds reading taken when the
inserted TabletTxnInfo is constructed. -/
def prepare_txn (cfg : Config) (st : TxnState)
    (partition_id transaction_id tablet_id schema_hash : Int) (tablet_uid : TabletUid)
    (load_id : PUniqueId) (now : Int) : Status × TxnState :=
  let key : TxnKey := (partition_id, transaction_id)
  let tablet_info : TabletInfo := ⟨tablet_id, schema_hash, tablet_uid⟩
  if prepare_found_committed st key tablet_info load_id then
    (Status.OK, st)
  else if partition_shard_size cfg st transaction_id >
      cfg.max_runnings_transactions_per_txn_map then
    (Status.TooManyTransactions, st)
  else
    (Status.OK, upsert_tablet_txn st key tablet_info
      { load_id := load_id, rowset := none, creation_time := now })

/-- The duplicate-commit test of commit_txn: same load id, entry committed,
and the stored rowset id equals the new rowset's id. -/
def commit_dup (st : TxnState) (key : TxnKey) (tablet_info : TabletInfo)
    (load_id : PUniqueId) (rowset : Rowset) : Bool :=
  match getEntry st key tablet_info with
  | some li =>
    match li.rowset with
    | some r => decide (li.load_id = load_id) && decide (r.rowset_id = rowset.rowset_id)
    | none => false
  | none => false

/-- The conflicting-commit test of commit_txn: same load id, entry committed,
but the stored rowset id differs from the new rowset's id. -/
def commit_conflict (st : TxnState) (key : TxnKey) (tablet_info : TabletInfo)
    (load_id : PUniqueId) (rowset : Rowset) : Bool :=
  match getEntry st key tablet_info with
  | some li =>
    match li.rowset with
    | some r => decide (li.load_id = load_id) && decide (r.rowset_id ≠ rowset.rowset_id)
    | none => false
  | none => false

/-- TxnManager::commit_txn.  save_ok tells whether the RowsetMetaManager::save
performed when is_recovery is false succeeds; now is the UnixSeconds reading of
the TabletTxnInfo construction. -/
def commit_txn (st : TxnState) (partition_id transaction_id tablet_id schema_hash : Int)
    (tablet_uid : TabletUid) (load_id : PUniqueId) (rowset_ptr : Option Rowset)
    (is_recovery : Bool) (now : Int) (save_ok : Bool) : Status × TxnState :=
  if partition_id < 1 ∨ transaction_id < 1 ∨ tablet_id < 1 then
    (Status.Fatal, st)
  else
    let key : TxnKey := (partition_id, transaction_id)
    let tablet_info : TabletInfo := ⟨tablet_id, schema_hash, tablet_uid⟩
    match rowset_ptr with
    | none => (Status.RowsetInvalid, st)
    | some rowset =>
      if commit_dup st key tablet_info load_id rowset then
        (Status.OK, st)
      else if commit_conflict st key tablet_info load_id rowset then
        (Status.AlreadyExists, st)
      else if !is_recovery && !save_ok then
        (Status.SaveFailed, st)
      else
        let st1 := if is_recovery then st else rms_put st tablet_uid rowset.rowset_id rowset
        (Status.OK, upsert_tablet_txn st1 key tablet_info
          { load_id := load_id, rowset := some rowset, creation_time := now })

/-- TxnManager::publish_txn.  save_ok tells whether the
RowsetMetaManager::save of the made-visible meta succeeds; bitmap_status is
the status produced by the code after the index erase (tablet registry lookup
and, for merge-on-write unique-key tablets, the delete-bitmap construction),
which never touches the transaction index or the meta store. -/
def publish_txn (st : TxnState) (partition_id transaction_id tablet_id schema_hash : Int)
    (tablet_uid : TabletUid) (version : Version) (save_ok : Bool) (bitmap_status : Status) :
    Status × TxnState :=
  let key : TxnKey := (partition_id, transaction_id)
  let tablet_info : TabletInfo := ⟨tablet_id, schema_hash, tablet_uid⟩
  match (getEntry st key tablet_info).bind TabletTxnInfo.rowset with
  | none => (Status.TransactionNotExist, st)
  | some rowset =>
    let visible := Rowset.make_visible rowset version
    let st1 := set_entry_rowset st key tablet_info visible
    if save_ok then
      let st2 := rms_put st1 tablet_uid rowset.rowset_id visible
      (bitmap_status, erase_tablet_from_txn st2 key tablet_info)
    else
      (Status.SaveFailed, st1)

/-- TxnManager::rollback_txn. -/
def rollback_txn (st : TxnState) (partition_id transaction_id tablet_id schema_hash : Int)
    (tablet_uid : TabletUid) : Status × TxnState :=
  let key : TxnKey := (partition_id, transaction_id)
  let tablet_info : TabletInfo := ⟨tablet_id, schema_hash, tablet_uid⟩
  match alFind st.tablet_map key with
  | none => (Status.OK, st)
  | some inner =>
    let committed :=
      match alFind inner tablet_info with
      | some li => li.rowset.isSome
      | none => false
    if committed then
      (Status.AlreadyCommitted, st)
    else
      (Status.OK, erase_tablet_from_txn st key tablet_info)

/-- TxnManager::delete_txn.  meta_present tells whether a non-null OlapMeta
was passed (the RPC path always passes one). -/
def delete_txn (st : TxnState) (partition_id transaction_id tablet_id schema_hash : Int)
    (tablet_uid : TabletUid) (meta_present : Bool) : Status × TxnState :=
  let key : TxnKey := (partition_id, transaction_id)
  let tablet_info : TabletInfo := ⟨tablet_id, schema_hash, tablet_uid⟩
  match alFind st.tablet_map key with
  | none => (Status.TransactionNotExist, st)
  | some inner =>
    match alFind inner tablet_info with
    | some li =>
      match li.rowset with
      | some r =>
        if meta_present then
          if r.version.first > 0 then
            (Status.AlreadyCommitted, st)
          else
            let st1 := add_unused_rowset (rms_remove st tablet_uid r.rowset_id) r
            (Status.OK, erase_tablet_from_txn st1 key tablet_info)
        else
          (Status.OK, erase_tablet_from_txn st key tablet_info)
      | none => (Status.OK, erase_tablet_from_txn st key tablet_info)
    | none => (Status.OK, erase_tablet_from_txn st key tablet_info)

/-- One iteration of the loop of force_rollback_tablet_related_txns: for the
given TxnKey, remove the tablet's entry (removing the committed rowset's meta
from the store when present), then drop the TxnKey if its inner map became
empty, maintaining the partition map. -/
def force_process_key (tablet_uid : TabletUid) (tablet_info : TabletInfo) (meta_present : Bool)
    (st : TxnState) (key : TxnKey) : TxnState :=
  match alFind st.tablet_map key with
  | none => st
  | some inner =>
    let st1 :=
      match alFind inner tablet_info with
      | some li =>
        match li.rowset with
        | some r => if meta_present then rms_remove st tablet_uid r.rowset_id else st
        | none => st
      | none => st
    erase_tablet_from_txn st1 key tablet_info

/-- TxnManager::force_rollback_tablet_related_txns: every TxnKey of every
shard is visited once; each visit only touches that key's entry, the meta
store and the partition map, so iterating over the keys present at entry is
equivalent to the C++ in-place iteration. -/
def force_rollback_tablet_related_txns (st : TxnState) (tablet_id schema_hash : Int)
    (tablet_uid : TabletUid) (meta_present : Bool) : TxnState :=
  (st.tablet_map.map Prod.fst).foldl
    (force_process_key tablet_uid ⟨tablet_id, schema_hash, tablet_uid⟩ meta_present) st

/-! ### Operation sequences and reachability -/

/-- One invocation of a mutating TxnManager operation, with its oracle inputs
(clock readings, disk-write outcomes, delete-bitmap outcome). -/
inductive Op where
  | prepare (partition_id transaction_id tablet_id schema_hash : Int) (tablet_uid : TabletUid)
      (load_id : PUniqueId) (now : Int)
  | commit (partition_id transaction_id tablet_id schema_hash : Int) (tablet_uid : TabletUid)
      (load_id : PUniqueId) (rowset_ptr : Option Rowset) (is_recovery : Bool) (now : Int)
      (save_ok : Bool)
  | publish (partition_id transaction_id tablet_id schema_hash : Int) (tablet_uid : TabletUid)
      (version : Version) (save_ok : Bool) (bitmap_status : Status)
  | rollback (partition_id transaction_id tablet_id schema_hash : Int) (tablet_uid : TabletUid)
  | deleteTxn (partition_id transaction_id tablet_id schema_hash : Int) (tablet_uid : TabletUid)
      (meta_present : Bool)
  | forceRollback (tablet_id schema_hash : Int) (tablet_uid : TabletUid) (meta_present : Bool)
deriving DecidableEq, Repr

/-- Run one operation, returning its status and the successor state. -/
def runOp (cfg : Config) (st : TxnState) : Op → Status × TxnState
  | Op.prepare p t tid sh uid load now => prepare_txn cfg st p t tid sh uid load now
  | Op.commit p t tid sh uid load rp rec now sv => commit_txn st p t tid sh uid load rp rec now sv
  | Op.publish p t tid sh uid v sv bs => publish_txn st p t tid sh uid v sv bs
  | Op.rollback p t tid sh uid => rollback_txn st p t tid sh uid
  | Op.deleteTxn p t tid sh uid mp => delete_txn st p t tid sh uid mp
  | Op.forceRollback tid sh uid mp => (Status.OK, force_rollback_tablet_related_txns st tid sh uid mp)

/-- The state reached by running a sequence of operations from the initial
(empty) state. -/
def execOps (cfg : Config) (ops : List Op) : TxnState :=
  ops.foldl (fun st op => (runOp cfg st op).2) TxnState.init


theorem mem_insert_txn_partition_map (pm : List (Int × List Int)) (t p t' p' : Int) :
    p' ∈ (alFind (insert_txn_partition_map pm t p) t').getD [] ↔
      (t' = t ∧ p' = p) ∨ p' ∈ (alFind pm t').getD [] := by
  unfold insert_txn_partition_map
  rw [alFind_alInsert]
  by_cases ht : t = t'
  · rw [if_pos ht]
    subst ht
    rw [Option.getD_some]
    by_cases hp : p ∈ (alFind pm t).getD []
    · rw [if_pos hp]
      constructor
      · exact fun h => Or.inr h
      · rintro (⟨-, rfl⟩ | h)
        · exact hp
        · exact h
    · rw [if_neg hp, List.mem_cons]
      constructor
      · rintro (rfl | h)
        · exact Or.inl ⟨rfl, rfl⟩
        · exact Or.inr h
      · rintro (⟨-, rfl⟩ | h)
        · exact Or.inl rfl
        · exact Or.inr h
  · rw [if_neg ht]
    have ht' : ¬ (t' = t ∧ p' = p) := fun hc => ht hc.1.symm
    simp [ht']


theorem mem_clear_txn_partition_map (pm : List (Int × List Int)) (t p t' p' : Int) :
    p' ∈ (alFind (clear_txn_partition_map pm t p) t').getD [] ↔
      p' ∈ (alFind pm t').getD [] ∧ ¬(t' = t ∧ p' = p) := by
  unfold clear_txn_partition_map
  cases h : alFind pm t with
  | none =>
    dsimp only
    by_cases ht : t' = t
    · subst ht
      simp [h]
    · constructor
      · exact fun hm => ⟨hm, fun hc => ht hc.1⟩
      · exact fun hm => hm.1
  | some s =>
    dsimp only
    by_cases hnil : s.filter (fun q => decide (q ≠ p)) = []
    · rw [if_pos hnil, alFind_alErase]
      by_cases ht : t = t'
      · rw [if_pos ht]
        subst ht
        rw [h, Option.getD_none, Option.getD_some]
        constructor
        · intro hc
          exact absurd hc (List.not_mem_nil p')
        · rintro ⟨h1, h2⟩
          have hmem : p' ∈ s.filter (fun q => decide (q ≠ p)) := by
            rw [List.mem_filter]
            refine ⟨h1, ?_⟩
            simp only [decide_eq_true_eq]
            intro he
            exact h2 ⟨rfl, he⟩
          rw [hnil] at hmem
          exact absurd hmem (List.not_mem_nil p')
      · rw [if_neg ht]
        have hnc : ¬ (t' = t ∧ p' = p) := fun hc => ht hc.1.symm
        constructor
        · exact fun hm => ⟨hm, hnc⟩
        · exact fun hm => hm.1
    · rw [if_neg hnil, alFind_alInsert]
      by_cases ht : t = t'
      · rw [if_pos ht]
        subst ht
        rw [h, Option.getD_some, Option.getD_some, List.mem_filter]
        simp only [decide_eq_true_eq]
        constructor
        · rintro ⟨h1, h2⟩
          exact ⟨h1, fun hc => h2 hc.2⟩
        · rintro ⟨h1, h2⟩
          exact ⟨h1, fun hc => h2 ⟨by trivial, hc⟩⟩
      · rw [if_neg ht]
        have hnc : ¬ (t' = t ∧ p' = p) := fun hc => ht hc.1.symm
        constructor
        · exact fun hm => ⟨hm, hnc⟩
        · exact fun hm => hm.1


theorem getEntry_upsert (st : TxnState) (key : TxnKey) (ti : TabletInfo)
    (li : TabletTxnInfo) (key' : TxnKey) (ti' : TabletInfo) :
    getEntry (upsert_tablet_txn st key ti li) key' ti' =
      if key' = key ∧ ti' = ti then some li else getEntry st key' ti' := by
  unfold upsert_tablet_txn getEntry
  dsimp only
  rw [alFind_alInsert]
  by_cases hk : key = key'
  · rw [if_pos hk]
    subst hk
    rw [Option.some_bind, alFind_alInsert]
    by_cases hti : ti = ti'
    · rw [if_pos hti, if_pos ⟨rfl, hti.symm⟩]
    · rw [if_neg hti, if_neg (fun hc : key = key ∧ ti' = ti => hti hc.2.symm)]
      cases h : alFind st.tablet_map key with
      | none => simp [alFind]
      | some inner => simp
  · rw [if_neg hk, if_neg (fun hc : key' = key ∧ ti' = ti => hk hc.1.symm)]

theorem getEntry_erase_tablet (st : TxnState) (key : TxnKey) (ti : TabletInfo)
    (key' : TxnKey) (ti' : TabletInfo) :
    getEntry (erase_tablet_from_txn st key ti) key' ti' =
      if key' = key ∧ ti' = ti then none else getEntry st key' ti' := by
  unfold erase_tablet_from_txn
  cases h : alFind st.tablet_map key with
  | none =>
    dsimp only
    by_cases hc : key' = key ∧ ti' = ti
    · obtain ⟨rfl, rfl⟩ := hc
      rw [if_pos ⟨rfl, rfl⟩]
      unfold getEntry
      rw [h, Option.none_bind]
    · rw [if_neg hc]
  | some inner =>
    dsimp only
    by_cases hnil : alErase inner ti = []
    · rw [if_pos hnil]
      unfold getEntry
      dsimp only
      rw [alFind_alErase]
      by_cases hk : key = key'
      · rw [if_pos hk]
        subst hk
        rw [Option.none_bind]
        by_cases hti : ti' = ti
        · rw [if_pos ⟨rfl, hti⟩]
        · rw [if_neg (fun hc : key = key ∧ ti' = ti => hti hc.2)]
          rw [h, Option.some_bind, alErase_eq_nil_find inner ti ti' hnil (fun he => hti he.symm)]
      · rw [if_neg hk, if_neg (fun hc : key' = key ∧ ti' = ti => hk hc.1.symm)]
    · rw [if_neg hnil]
      unfold getEntry
      dsimp only
      rw [alFind_alInsert]
      by_cases hk : key = key'
      · rw [if_pos hk]
        subst hk
        rw [Option.some_bind, alFind_alErase, h, Option.some_bind]
        by_cases hti : ti = ti'
        · rw [if_pos hti, if_pos ⟨rfl, hti.symm⟩]
        · rw [if_neg hti, if_neg (fun hc : key = key ∧ ti' = ti => hti hc.2.symm)]
      · rw [if_neg hk, if_neg (fun hc : key' = key ∧ ti' = ti => hk hc.1.symm)]

theorem getEntry_set_entry_rowset (st : TxnState) (key : TxnKey) (ti : TabletInfo)
    (r : Rowset) (key' : TxnKey) (ti' : TabletInfo) :
    getEntry (set_entry_rowset st key ti r) key' ti' =
      if key' = key ∧ ti' = ti then
        (getEntry st key ti).map (fun li => { li with rowset := some r })
      else getEntry st key' ti' := by
  unfold set_entry_rowset
  cases h : alFind st.tablet_map key with
  | none =>
    dsimp only
    by_cases hc : key' = key ∧ ti' = ti
    · obtain ⟨rfl, rfl⟩ := hc
      rw [if_pos ⟨rfl, rfl⟩]
      have hmap : getEntry st key' ti' = none := by
        unfold getEntry
        rw [h]
        rfl
      rw [hmap]
      rfl
    · rw [if_neg hc]
  | some inner =>
    dsimp only
    cases hli : alFind inner ti with
    | none =>
      dsimp only
      by_cases hc : key' = key ∧ ti' = ti
      · obtain ⟨rfl, rfl⟩ := hc
        rw [if_pos ⟨rfl, rfl⟩]
        have hmap : getEntry st key' ti' = none := by
          unfold getEntry
          rw [h, Option.some_bind, hli]
        rw [hmap]
        rfl
      · rw [if_neg hc]
    | some li =>
      dsimp only
      unfold getEntry
      dsimp only
      rw [alFind_alInsert]
      by_cases hk : key = key'
      · rw [if_pos hk]
        subst hk
        rw [Option.some_bind, alFind_alInsert]
        by_cases hti : ti = ti'
        · rw [if_pos hti]
          subst hti
          rw [if_pos ⟨rfl, rfl⟩, h, Option.some_bind, hli]
          rfl
        · rw [if_neg hti, if_neg (fun hc : key = key ∧ ti' = ti => hti hc.2.symm),
              h, Option.some_bind]
      · rw [if_neg hk, if_neg (fun hc : key' = key ∧ ti' = ti => hk hc.1.symm)]


theorem erase_tablet_rms (st : TxnState) (key : TxnKey) (ti : TabletInfo) :
    (erase_tablet_from_txn st key ti).rms = st.rms := by
  unfold erase_tablet_from_txn
  split
  · rfl
  · dsimp only
    split <;> rfl

theorem erase_tablet_rms_put_log (st : TxnState) (key : TxnKey) (ti : TabletInfo) :
    (erase_tablet_from_txn st key ti).rms_put_log = st.rms_put_log := by
  unfold erase_tablet_from_txn
  split
  · rfl
  · dsimp only
    split <;> rfl

theorem set_entry_rowset_partition_map (st : TxnState) (key : TxnKey) (ti : TabletInfo)
    (r : Rowset) : (set_entry_rowset st key ti r).partition_map = st.partition_map := by
  unfold set_entry_rowset
  split
  · rfl
  · split <;> rfl

theorem set_entry_rowset_rms (st : TxnState) (key : TxnKey) (ti : TabletInfo)
    (r : Rowset) : (set_entry_rowset st key ti r).rms = st.rms := by
  unfold set_entry_rowset
  split
  · rfl
  · split <;> rfl

theorem find_tablet_map_set_entry_rowset (st : TxnState) (key : TxnKey) (ti : TabletInfo)
    (r : Rowset) (key' : TxnKey) :
    (alFind (set_entry_rowset st key ti r).tablet_map key').isSome =
      (alFind st.tablet_map key').isSome := by
  unfold set_entry_rowset
  cases h : alFind st.tablet_map key with
  | none => rfl
  | some inner =>
    dsimp only
    cases hli : alFind inner ti with
    | none => rfl
    | some li =>
      dsimp only
      rw [alFind_alInsert]
      by_cases hk : key = key'
      · rw [if_pos hk]
        subst hk
        rw [h]
        rfl
      · rw [if_neg hk]


/-! ### The partition-map / tablet-map correspondence (spec invariant 3.1 / 8.5) -/

/-- The invariant of claim C9: a partition id belongs to a transaction's set in
txn_partition_map exactly when txn_tablet_map holds the key (partition_id,
transaction_id). -/
def partition_map_consistent (st : TxnState) : Prop :=
  ∀ t p : Int,
    p ∈ (alFind st.partition_map t).getD [] ↔ (alFind st.tablet_map (p, t)).isSome = true

theorem consistent_init : partition_map_consistent TxnState.init := by
  intro t p
  simp [TxnState.init, alFind]

theorem consistent_upsert (st : TxnState) (p t : Int) (ti : TabletInfo) (li : TabletTxnInfo)
    (h : partition_map_consistent st) :
    partition_map_consistent (upsert_tablet_txn st (p, t) ti li) := by
  intro t' p'
  unfold upsert_tablet_txn
  dsimp only
  rw [mem_insert_txn_partition_map, alFind_alInsert]
  by_cases hc : ((p, t) : TxnKey) = (p', t')
  · rw [if_pos hc]
    rw [Prod.mk.injEq] at hc
    obtain ⟨rfl, rfl⟩ := hc
    simp
  · rw [if_neg hc]
    constructor
    · rintro (⟨rfl, rfl⟩ | hm)
      · exact absurd rfl hc
      · exact (h t' p').mp hm
    · exact fun hs => Or.inr ((h t' p').mpr hs)

theorem consistent_erase_tablet (st : TxnState) (key : TxnKey) (ti : TabletInfo)
    (h : partition_map_consistent st) :
    partition_map_consistent (erase_tablet_from_txn st key ti) := by
  obtain ⟨kp, kt⟩ := key
  unfold erase_tablet_from_txn
  cases hf : alFind st.tablet_map (kp, kt) with
  | none => exact h
  | some inner =>
    dsimp only
    by_cases hnil : alErase inner ti = []
    · rw [if_pos hnil]
      intro t' p'
      dsimp only
      rw [mem_clear_txn_partition_map, alFind_alErase]
      by_cases hc : ((kp, kt) : TxnKey) = (p', t')
      · rw [if_pos hc]
        rw [Prod.mk.injEq] at hc
        obtain ⟨rfl, rfl⟩ := hc
        simp
      · rw [if_neg hc]
        constructor
        · exact fun hm => (h t' p').mp hm.1
        · intro hs
          refine ⟨(h t' p').mpr hs, ?_⟩
          rintro ⟨rfl, rfl⟩
          exact hc rfl
    · rw [if_neg hnil]
      intro t' p'
      dsimp only
      rw [alFind_alInsert]
      by_cases hc : ((kp, kt) : TxnKey) = (p', t')
      · rw [if_pos hc]
        rw [Prod.mk.injEq] at hc
        obtain ⟨rfl, rfl⟩ := hc
        simpa [hf] using (h kt kp)
      · rw [if_neg hc]
        exact h t' p'

theorem consistent_set_entry_rowset (st : TxnState) (key : TxnKey) (ti : TabletInfo)
    (r : Rowset) (h : partition_map_consistent st) :
    partition_map_consistent (set_entry_rowset st key ti r) := by
  intro t' p'
  rw [set_entry_rowset_partition_map, find_tablet_map_set_entry_rowset]
  exact h t' p'


theorem consistent_prepare (cfg : Config) (st : TxnState)
    (p t tid sh : Int) (uid : TabletUid) (load : PUniqueId) (now : Int)
    (h : partition_map_consistent st) :
    partition_map_consistent (prepare_txn cfg st p t tid sh uid load now).2 := by
  unfold prepare_txn
  dsimp only
  split
  · exact h
  · split
    · exact h
    · exact consistent_upsert st p t _ _ h

theorem consistent_commit (st : TxnState) (p t tid sh : Int) (uid : TabletUid)
    (load : PUniqueId) (rp : Option Rowset) (rec : Bool) (now : Int) (sv : Bool)
    (h : partition_map_consistent st) :
    partition_map_consistent (commit_txn st p t tid sh uid load rp rec now sv).2 := by
  unfold commit_txn
  split
  · exact h
  · dsimp only
    split
    · exact h
    · split
      · exact h
      · split
        · exact h
        · split
          · exact h
          · cases rec with
            | false => exact consistent_upsert _ p t _ _ h
            | true => exact consistent_upsert _ p t _ _ h

theorem consistent_publish (st : TxnState) (p t tid sh : Int) (uid : TabletUid)
    (v : Version) (sv : Bool) (bs : Status)
    (h : partition_map_consistent st) :
    partition_map_consistent (publish_txn st p t tid sh uid v sv bs).2 := by
  unfold publish_txn
  dsimp only
  split
  · exact h
  · split
    · exact consistent_erase_tablet _ _ _
        (consistent_set_entry_rowset st _ _ _ h)
    · exact consistent_set_entry_rowset st _ _ _ h

theorem consistent_rollback (st : TxnState) (p t tid sh : Int) (uid : TabletUid)
    (h : partition_map_consistent st) :
    partition_map_consistent (rollback_txn st p t tid sh uid).2 := by
  unfold rollback_txn
  dsimp only
  split
  · exact h
  · split
    · exact h
    · exact consistent_erase_tablet st _ _ h

theorem consistent_delete (st : TxnState) (p t tid sh : Int) (uid : TabletUid) (mp : Bool)
    (h : partition_map_consistent st) :
    partition_map_consistent (delete_txn st p t tid sh uid mp).2 := by
  unfold delete_txn
  dsimp only
  split
  · exact h
  · split
    · split
      · split
        · split
          · exact h
          · exact consistent_erase_tablet _ _ _ h
        · exact consistent_erase_tablet st _ _ h
      · exact consistent_erase_tablet st _ _ h
    · exact consistent_erase_tablet st _ _ h

theorem consistent_force_process (uid : TabletUid) (ti : TabletInfo) (mp : Bool)
    (st : TxnState) (key : TxnKey) (h : partition_map_consistent st) :
    partition_map_consistent (force_process_key uid ti mp st key) := by
  unfold force_process_key
  split
  · exact h
  · dsimp only
    apply consistent_erase_tablet
    split
    · split
      · split
        · exact h
        · exact h
      · exact h
    · exact h

theorem consistent_force_rollback (st : TxnState) (tid sh : Int) (uid : TabletUid) (mp : Bool)
    (h : partition_map_consistent st) :
    partition_map_consistent (force_rollback_tablet_related_txns st tid sh uid mp) := by
  unfold force_rollback_tablet_related_txns
  generalize (st.tablet_map.map Prod.fst) = keys
  induction keys generalizing st with
  | nil => exact h
  | cons k ks ih =>
    rw [List.foldl_cons]
    exact ih _ (consistent_force_process uid _ mp st k h)

theorem consistent_runOp (cfg : Config) (st : TxnState) (op : Op)
    (h : partition_map_consistent st) :
    partition_map_consistent (runOp cfg st op).2 := by
  cases op with
  | prepare p t tid sh uid load now => exact consistent_prepare cfg st p t tid sh uid load now h
  | commit p t tid sh uid load rp rec now sv =>
    exact consistent_commit st p t tid sh uid load rp rec now sv h
  | publish p t tid sh uid v sv bs => exact consistent_publish st p t tid sh uid v sv bs h
  | rollback p t tid sh uid => exact consistent_rollback st p t tid sh uid h
  | deleteTxn p t tid sh uid mp => exact consistent_delete st p t tid sh uid mp h
  | forceRollback tid sh uid mp => exact consistent_force_rollback st tid sh uid mp h

theorem consistent_execOps_from (cfg : Config) :
    ∀ (ops : List Op) (st : TxnState), partition_map_consistent st →
      partition_map_consistent (ops.foldl (fun st op => (runOp cfg st op).2) st) := by
  intro ops
  induction ops with
  | nil => exact fun st h => h
  | cons op ops ih =>
    intro st h
    rw [List.foldl_cons]
    exact ih _ (consistent_runOp cfg st op h)


/-! ### The no-published-rowset-in-index property (spec invariant 3.3) -/

/-- The property of claim C8: no entry of txn_tablet_map holds a rowset whose
recorded version has start > 0. -/
def no_published_entry (st : TxnState) : Prop :=
  ∀ (key : TxnKey) (ti : TabletInfo) (li : TabletTxnInfo) (r : Rowset),
    getEntry st key ti = some li → li.rowset = some r → r.version.first ≤ 0

/-- Well-formed oracle inputs for the amended claim C8: every committed rowset
is still unpublished on entry (as the load path guarantees: a freshly written
rowset carries version (0, 0)), and the RowsetMetaManager::save of every
publish succeeds.  A failed publish save leaves the made-visible rowset in the
index, which is exactly the counterexample to the claim as stated. -/
def Op.wf_input : Op → Bool
  | Op.commit _ _ _ _ _ _ rp _ _ _ =>
    match rp with
    | some r => decide (r.version.first ≤ 0)
    | none => true
  | Op.publish _ _ _ _ _ _ save _ => save
  | _ => true

theorem no_published_init : no_published_entry TxnState.init := by
  intro key ti li r hli
  simp [getEntry, TxnState.init, alFind] at hli

theorem no_published_upsert (st : TxnState) (key : TxnKey) (ti : TabletInfo)
    (li : TabletTxnInfo)
    (h : no_published_entry st)
    (hli : ∀ r : Rowset, li.rowset = some r → r.version.first ≤ 0) :
    no_published_entry (upsert_tablet_txn st key ti li) := by
  intro key' ti' li' r hget hrow
  rw [getEntry_upsert] at hget
  by_cases hc : key' = key ∧ ti' = ti
  · rw [if_pos hc] at hget
    cases hget
    exact hli r hrow
  · rw [if_neg hc] at hget
    exact h key' ti' li' r hget hrow

theorem no_published_erase (st : TxnState) (key : TxnKey) (ti : TabletInfo)
    (h : no_published_entry st) :
    no_published_entry (erase_tablet_from_txn st key ti) := by
  intro key' ti' li' r hget hrow
  rw [getEntry_erase_tablet] at hget
  by_cases hc : key' = key ∧ ti' = ti
  · rw [if_pos hc] at hget
    exact absurd hget (Option.noConfusion)
  · rw [if_neg hc] at hget
    exact h key' ti' li' r hget hrow

theorem no_published_publish_erase (st : TxnState) (key : TxnKey) (ti : TabletInfo)
    (r0 : Rowset) (uid : TabletUid) (rid : Int)
    (h : no_published_entry st) :
    no_published_entry
      (erase_tablet_from_txn (rms_put (set_entry_rowset st key ti r0) uid rid r0) key ti) := by
  intro key' ti' li' r hget hrow
  rw [getEntry_erase_tablet] at hget
  by_cases hc : key' = key ∧ ti' = ti
  · rw [if_pos hc] at hget
    exact absurd hget (Option.noConfusion)
  · rw [if_neg hc] at hget
    have hset : getEntry (set_entry_rowset st key ti r0) key' ti' = getEntry st key' ti' := by
      rw [getEntry_set_entry_rowset, if_neg hc]
    have hput : getEntry (rms_put (set_entry_rowset st key ti r0) uid rid r0) key' ti' =
        getEntry (set_entry_rowset st key ti r0) key' ti' := rfl
    rw [hput, hset] at hget
    exact h key' ti' li' r hget hrow


theorem no_published_prepare (cfg : Config) (st : TxnState)
    (p t tid sh : Int) (uid : TabletUid) (load : PUniqueId) (now : Int)
    (h : no_published_entry st) :
    no_published_entry (prepare_txn cfg st p t tid sh uid load now).2 := by
  unfold prepare_txn
  dsimp only
  split
  · exact h
  · split
    · exact h
    · exact no_published_upsert st _ _ _ h (fun r hr => Option.noConfusion hr)

theorem no_published_commit (st : TxnState) (p t tid sh : Int) (uid : TabletUid)
    (load : PUniqueId) (rp : Option Rowset) (rec : Bool) (now : Int) (sv : Bool)
    (hwf : ∀ r : Rowset, rp = some r → r.version.first ≤ 0)
    (h : no_published_entry st) :
    no_published_entry (commit_txn st p t tid sh uid load rp rec now sv).2 := by
  unfold commit_txn
  split
  · exact h
  · dsimp only
    cases hrp : rp with
    | none => exact h
    | some rowset =>
      dsimp only
      split
      · exact h
      · split
        · exact h
        · split
          · exact h
          · cases rec with
            | false =>
              refine no_published_upsert _ _ _ _ h ?_
              intro r hr
              cases hr
              exact hwf rowset hrp
            | true =>
              refine no_published_upsert _ _ _ _ h ?_
              intro r hr
              cases hr
              exact hwf rowset hrp

theorem no_published_publish (st : TxnState) (p t tid sh : Int) (uid : TabletUid)
    (v : Version) (bs : Status)
    (h : no_published_entry st) :
    no_published_entry (publish_txn st p t tid sh uid v true bs).2 := by
  unfold publish_txn
  dsimp only
  split
  · exact h
  · exact no_published_publish_erase st _ _ _ uid _ h

theorem no_published_rollback (st : TxnState) (p t tid sh : Int) (uid : TabletUid)
    (h : no_published_entry st) :
    no_published_entry (rollback_txn st p t tid sh uid).2 := by
  unfold rollback_txn
  dsimp only
  split
  · exact h
  · split
    · exact h
    · exact no_published_erase st _ _ h

theorem no_published_delete (st : TxnState) (p t tid sh : Int) (uid : TabletUid) (mp : Bool)
    (h : no_published_entry st) :
    no_published_entry (delete_txn st p t tid sh uid mp).2 := by
  unfold delete_txn
  dsimp only
  split
  · exact h
  · split
    · split
      · split
        · split
          · exact h
          · exact no_published_erase _ _ _ h
        · exact no_published_erase st _ _ h
      · exact no_published_erase st _ _ h
    · exact no_published_erase st _ _ h

theorem no_published_force_process (uid : TabletUid) (ti : TabletInfo) (mp : Bool)
    (st : TxnState) (key : TxnKey) (h : no_published_entry st) :
    no_published_entry (force_process_key uid ti mp st key) := by
  unfold force_process_key
  split
  · exact h
  · dsimp only
    apply no_published_erase
    split
    · split
      · split
        · exact h
        · exact h
      · exact h
    · exact h

theorem no_published_force_rollback (st : TxnState) (tid sh : Int) (uid : TabletUid) (mp : Bool)
    (h : no_published_entry st) :
    no_published_entry (force_rollback_tablet_related_txns st tid sh uid mp) := by
  unfold force_rollback_tablet_related_txns
  generalize (st.tablet_map.map Prod.fst) = keys
  induction keys generalizing st with
  | nil => exact h
  | cons k ks ih =>
    rw [List.foldl_cons]
    exact ih _ (no_published_force_process uid _ mp st k h)

theorem no_published_runOp (cfg : Config) (st : TxnState) (op : Op)
    (hwf : op.wf_input = true) (h : no_published_entry st) :
    no_published_entry (runOp cfg st op).2 := by
  cases op with
  | prepare p t tid sh uid load now => exact no_published_prepare cfg st p t tid sh uid load now h
  | commit p t tid sh uid load rp rec now sv =>
    refine no_published_commit st p t tid sh uid load rp rec now sv ?_ h
    intro r hr
    subst hr
    simp only [Op.wf_input] at hwf
    exact of_decide_eq_true hwf
  | publish p t tid sh uid v sv bs =>
    simp only [Op.wf_input] at hwf
    subst hwf
    exact no_published_publish st p t tid sh uid v bs h
  | rollback p t tid sh uid => exact no_published_rollback st p t tid sh uid h
  | deleteTxn p t tid sh uid mp => exact no_published_delete st p t tid sh uid mp h
  | forceRollback tid sh uid mp => exact no_published_force_rollback st tid sh uid mp h

theorem no_published_execOps_from (cfg : Config) :
    ∀ (ops : List Op) (st : TxnState), (∀ op ∈ ops, op.wf_input = true) →
      no_published_entry st →
      no_published_entry (ops.foldl (fun st op => (runOp cfg st op).2) st) := by
  intro ops
  induction ops with
  | nil => exact fun st _ h => h
  | cons op ops ih =>
    intro st hwf h
    rw [List.foldl_cons]
    exact ih _ (fun q hq => hwf q (List.mem_cons_of_mem op hq))
      (no_published_runOp cfg st op (hwf op (List.mem_cons_self op ops)) h)


/-! ### Concrete fixtures shared by witnesses and counterexamples -/

def cfgEx : Config := ⟨100, 1⟩

def cfgCap1 : Config := ⟨1, 1⟩

def uidEx : TabletUid := ⟨11, 12⟩

def loadL1 : PUniqueId := ⟨1, 1⟩

def loadL2 : PUniqueId := ⟨2, 2⟩

def rowsetR1 : Rowset := ⟨1, ⟨0, 0⟩, 0⟩

def rowsetR2 : Rowset := ⟨2, ⟨0, 0⟩, 0⟩

def tiEx : TabletInfo := ⟨7, 42, uidEx⟩

def vers55 : Version := ⟨5, 5⟩

/-- State after prepare(10, 100, T1, L1) at time 0. -/
def stPrepared : TxnState := (prepare_txn cfgEx TxnState.init 10 100 7 42 uidEx loadL1 0).2

/-- State after the above prepare followed by commit(R1) at time 1. -/
def stCommitted : TxnState :=
  (commit_txn stPrepared 10 100 7 42 uidEx loadL1 (some rowsetR1) false 1 true).2

/-- State after the above commit followed by publish((5,5)) whose save succeeds. -/
def stPublished : TxnState :=
  (publish_txn stCommitted 10 100 7 42 uidEx vers55 true Status.OK).2

/-- Three committed transactions 1, 2, 3 on partition 1 in the single shard of
cfgCap1, so the shard's partition map has size 3 > cap 1. -/
def stThreeCommitted : TxnState :=
  (commit_txn (commit_txn (commit_txn TxnState.init
      1 1 7 42 uidEx loadL1 (some rowsetR1) false 0 true).2
      1 2 7 42 uidEx loadL1 (some rowsetR1) false 0 true).2
      1 3 7 42 uidEx loadL1 (some rowsetR1) false 0 true).2

/-- prepare; commit; publish with the publish-time RowsetMetaManager::save
failing. -/
def opsPublishSaveFail : List Op :=
  [Op.prepare 10 100 7 42 uidEx loadL1 0,
   Op.commit 10 100 7 42 uidEx loadL1 (some rowsetR1) false 1 true,
   Op.publish 10 100 7 42 uidEx vers55 false Status.OK]

/-- prepare; commit; publish with every disk write succeeding. -/
def opsHappyPath : List Op :=
  [Op.prepare 10 100 7 42 uidEx loadL1 0,
   Op.commit 10 100 7 42 uidEx loadL1 (some rowsetR1) false 1 true,
   Op.publish 10 100 7 42 uidEx vers55 true Status.OK]

/-! ### What a publish that returned OK did -/

/-- Elimination principle for a publish that found a committed entry and
returned OK: the save succeeded, the delete-bitmap tail returned OK, and the
result state is the erase of the entry from the state whose shared rowset was
made visible and persisted. -/
theorem publish_ok_elim (st : TxnState) (p t tid sh : Int) (uid : TabletUid) (v : Version)
    (sv : Bool) (bs : Status) (li : TabletTxnInfo) (r : Rowset) (st' : TxnState)
    (hentry : getEntry st (p, t) ⟨tid, sh, uid⟩ = some li)
    (hrow : li.rowset = some r)
    (hpub : publish_txn st p t tid sh uid v sv bs = (Status.OK, st')) :
    sv = true ∧ bs = Status.OK ∧
    st' = erase_tablet_from_txn
      (rms_put (set_entry_rowset st (p, t) ⟨tid, sh, uid⟩ (Rowset.make_visible r v))
        uid r.rowset_id (Rowset.make_visible r v)) (p, t) ⟨tid, sh, uid⟩ := by
  unfold publish_txn at hpub
  simp only [hentry, Option.some_bind, hrow] at hpub
  cases sv with
  | false =>
    simp only [Bool.false_eq_true, if_false] at hpub
    exact absurd (congrArg Prod.fst hpub) (by simp)
  | true =>
    simp only [if_true] at hpub
    rw [Prod.mk.injEq] at hpub
    exact ⟨rfl, hpub.1, hpub.2.symm⟩


/-! ### The claims -/

/-- C1: for every state holding a committed entry for (partition_id,
transaction_id, tablet_info), if publish_txn returns OK then no entry for that
(TxnKey, TabletInfo) remains in the in-memory index, and the value stored in
the rowset-meta store under (tablet_uid, rowset_id) is the rowset meta carrying
the published version. -/
theorem C1_publish_ok_clears_index_and_persists_version
    (st : TxnState) (p t tid sh : Int) (uid : TabletUid) (v : Version)
    (sv : Bool) (bs : Status) (li : TabletTxnInfo) (r : Rowset) (st' : TxnState)
    (hentry : getEntry st (p, t) ⟨tid, sh, uid⟩ = some li)
    (hrow : li.rowset = some r)
    (hpub : publish_txn st p t tid sh uid v sv bs = (Status.OK, st')) :
    getEntry st' (p, t) ⟨tid, sh, uid⟩ = none ∧
    alFind st'.rms (uid, r.rowset_id) = some (Rowset.make_visible r v) ∧
    (Rowset.make_visible r v).version = v := by
  obtain ⟨-, -, heq⟩ := publish_ok_elim st p t tid sh uid v sv bs li r st' hentry hrow hpub
  subst heq
  refine ⟨?_, ?_, rfl⟩
  · rw [getEntry_erase_tablet, if_pos ⟨rfl, rfl⟩]
  · rw [erase_tablet_rms]
    show alFind (alInsert (set_entry_rowset st (p, t) ⟨tid, sh, uid⟩
      (Rowset.make_visible r v)).rms (uid, r.rowset_id) (Rowset.make_visible r v))
      (uid, r.rowset_id) = some (Rowset.make_visible r v)
    rw [alFind_alInsert, if_pos rfl]

/-- Witness for C1: in the concrete happy-path run, the publish that returned
OK removed the entry and left the version-(5,5) meta in the store. -/
theorem C1_witness :
    getEntry stPublished (10, 100) ⟨7, 42, uidEx⟩ = none ∧
    alFind stPublished.rms (uidEx, rowsetR1.rowset_id) =
      some (Rowset.make_visible rowsetR1 vers55) ∧
    (Rowset.make_visible rowsetR1 vers55).version = vers55 :=
  C1_publish_ok_clears_index_and_persists_version stCommitted 10 100 7 42 uidEx vers55
    true Status.OK ⟨loadL1, some rowsetR1, 1⟩ rowsetR1 stPublished
    (by decide) (by decide) (by decide)

/-- C2 counterexample: in the concrete run prepare; commit; publish where the
publish returned OK, the subsequent delete_txn for the same (partition_id,
txn_id, tablet_info) returns TransactionNotExist, not AlreadyCommitted as the
claim states (the publish already erased the entry, so delete_txn cannot find
it). -/
theorem C2_counterexample :
    (publish_txn stCommitted 10 100 7 42 uidEx vers55 true Status.OK).1 = Status.OK ∧
    delete_txn stPublished 10 100 7 42 uidEx true =
      (Status.TransactionNotExist, stPublished) := by
  decide

/-- C2 amended: for every sequence prepare; commit; publish where publish
returned OK and the tablet was the only one recorded under the TxnKey, a
subsequent delete_txn for the same (partition_id, txn_id, tablet_info) returns
TransactionNotExist (not AlreadyCommitted) and leaves the state, in particular
the rowset-meta store, unchanged (it does not remove the published rowset's
meta). -/
theorem C2_amended_delete_after_publish
    (st : TxnState) (p t tid sh : Int) (uid : TabletUid) (v : Version)
    (sv : Bool) (bs : Status) (li : TabletTxnInfo) (r : Rowset) (st' : TxnState)
    (hinner : alFind st.tablet_map (p, t) = some [(⟨tid, sh, uid⟩, li)])
    (hrow : li.rowset = some r)
    (hpub : publish_txn st p t tid sh uid v sv bs = (Status.OK, st')) :
    delete_txn st' p t tid sh uid true = (Status.TransactionNotExist, st') := by
  have hentry : getEntry st (p, t) ⟨tid, sh, uid⟩ = some li := by
    unfold getEntry
    rw [hinner, Option.some_bind]
    simp [alFind]
  obtain ⟨-, -, heq⟩ := publish_ok_elim st p t tid sh uid v sv bs li r st' hentry hrow hpub
  have hfi : alFind [((⟨tid, sh, uid⟩ : TabletInfo), li)] (⟨tid, sh, uid⟩ : TabletInfo) =
      some li := by
    simp [alFind]
  have hset : alFind (set_entry_rowset st (p, t) ⟨tid, sh, uid⟩
      (Rowset.make_visible r v)).tablet_map (p, t) =
      some [(⟨tid, sh, uid⟩, { li with rowset := some (Rowset.make_visible r v) })] := by
    unfold set_entry_rowset
    simp only [hinner, hfi]
    rw [alFind_alInsert, if_pos rfl]
    congr 1
    simp [alInsert]
  have hset2 : alFind (rms_put (set_entry_rowset st (p, t) ⟨tid, sh, uid⟩
      (Rowset.make_visible r v)) uid r.rowset_id (Rowset.make_visible r v)).tablet_map
      (p, t) =
      some [(⟨tid, sh, uid⟩, { li with rowset := some (Rowset.make_visible r v) })] := hset
  have hnone : alFind st'.tablet_map (p, t) = none := by
    rw [heq]
    unfold erase_tablet_from_txn
    simp only [hset2]
    rw [if_pos (by simp [alErase])]
    dsimp only
    rw [alFind_alErase, if_pos rfl]
  unfold delete_txn
  simp only [hnone]

/-- Witness for the amended C2 at the concrete happy-path run. -/
theorem C2_witness :
    delete_txn stPublished 10 100 7 42 uidEx true =
      (Status.TransactionNotExist, stPublished) :=
  C2_amended_delete_after_publish stCommitted 10 100 7 42 uidEx vers55 true Status.OK
    ⟨loadL1, some rowsetR1, 1⟩ rowsetR1 stPublished (by decide) (by decide) (by decide)


/-- C3: for every committed entry with load id L and rowset R, a second commit
with the same L and a rowset carrying R's rowset id returns OK and performs no
second rowset-meta-store put: the state, in particular the put log and the
stored meta, is left exactly as it was. -/
theorem C3_commit_idempotent_same_rowset
    (st : TxnState) (p t tid sh : Int) (uid : TabletUid) (load : PUniqueId)
    (li : TabletTxnInfo) (r r2 : Rowset) (rec : Bool) (now : Int) (sv : Bool)
    (hp : 1 ≤ p) (ht : 1 ≤ t) (htid : 1 ≤ tid)
    (hentry : getEntry st (p, t) ⟨tid, sh, uid⟩ = some li)
    (hload : li.load_id = load) (hrow : li.rowset = some r)
    (hid : r.rowset_id = r2.rowset_id) :
    commit_txn st p t tid sh uid load (some r2) rec now sv = (Status.OK, st) ∧
    (commit_txn st p t tid sh uid load (some r2) rec now sv).2.rms_put_log =
      st.rms_put_log := by
  have hdup : commit_dup st (p, t) ⟨tid, sh, uid⟩ load r2 = true := by
    unfold commit_dup
    simp only [hentry, hrow, hload, hid]
    simp
  have hvalid : ¬ (p < 1 ∨ t < 1 ∨ tid < 1) := by omega
  have hmain : commit_txn st p t tid sh uid load (some r2) rec now sv = (Status.OK, st) := by
    unfold commit_txn
    rw [if_neg hvalid]
    simp only [hdup, if_true]
  exact ⟨hmain, by rw [hmain]⟩

/-- Witness for C3: in the concrete run, a duplicate commit of R1 returns OK
and leaves the state and the put log unchanged. -/
theorem C3_witness :
    commit_txn stCommitted 10 100 7 42 uidEx loadL1 (some rowsetR1) false 2 true =
      (Status.OK, stCommitted) ∧
    (commit_txn stCommitted 10 100 7 42 uidEx loadL1 (some rowsetR1) false 2 true).2.rms_put_log =
      stCommitted.rms_put_log :=
  C3_commit_idempotent_same_rowset stCommitted 10 100 7 42 uidEx loadL1
    ⟨loadL1, some rowsetR1, 1⟩ rowsetR1 rowsetR1 false 2 true
    (by decide) (by decide) (by decide) (by decide) (by decide) (by decide) (by decide)

/-- C4: for every committed entry with load id L and rowset R, a commit with
the same L but a rowset whose id differs from R's returns AlreadyExists, and
the index still holds R for that (TxnKey, TabletInfo) (the state is
unchanged). -/
theorem C4_commit_conflicting_rowset_id
    (st : TxnState) (p t tid sh : Int) (uid : TabletUid) (load : PUniqueId)
    (li : TabletTxnInfo) (r r2 : Rowset) (rec : Bool) (now : Int) (sv : Bool)
    (hp : 1 ≤ p) (ht : 1 ≤ t) (htid : 1 ≤ tid)
    (hentry : getEntry st (p, t) ⟨tid, sh, uid⟩ = some li)
    (hload : li.load_id = load) (hrow : li.rowset = some r)
    (hid : r.rowset_id ≠ r2.rowset_id) :
    commit_txn st p t tid sh uid load (some r2) rec now sv = (Status.AlreadyExists, st) ∧
    getEntry (commit_txn st p t tid sh uid load (some r2) rec now sv).2
      (p, t) ⟨tid, sh, uid⟩ = some li ∧ li.rowset = some r := by
  have hdup : commit_dup st (p, t) ⟨tid, sh, uid⟩ load r2 = false := by
    unfold commit_dup
    simp only [hentry, hrow, hload, hid]
    simp [hid]
  have hconf : commit_conflict st (p, t) ⟨tid, sh, uid⟩ load r2 = true := by
    unfold commit_conflict
    simp only [hentry, hrow, hload]
    simp [hid]
  have hvalid : ¬ (p < 1 ∨ t < 1 ∨ tid < 1) := by omega
  have hmain : commit_txn st p t tid sh uid load (some r2) rec now sv =
      (Status.AlreadyExists, st) := by
    unfold commit_txn
    rw [if_neg hvalid]
    simp only [hdup, hconf, Bool.false_eq_true, if_false, if_true]
  refine ⟨hmain, ?_, hrow⟩
  rw [hmain]
  exact hentry

/-- Witness for C4: committing R2 over the committed R1 with the same load id
returns AlreadyExists and the entry still holds R1. -/
theorem C4_witness :
    commit_txn stCommitted 10 100 7 42 uidEx loadL1 (some rowsetR2) false 2 true =
      (Status.AlreadyExists, stCommitted) ∧
    getEntry (commit_txn stCommitted 10 100 7 42 uidEx loadL1 (some rowsetR2) false 2 true).2
      (10, 100) ⟨7, 42, uidEx⟩ = some ⟨loadL1, some rowsetR1, 1⟩ ∧
    (⟨loadL1, some rowsetR1, 1⟩ : TabletTxnInfo).rowset = some rowsetR1 :=
  C4_commit_conflicting_rowset_id stCommitted 10 100 7 42 uidEx loadL1
    ⟨loadL1, some rowsetR1, 1⟩ rowsetR1 rowsetR2 false 2 true
    (by decide) (by decide) (by decide) (by decide) (by decide) (by decide) (by decide)


/-- A shard whose partition map already has exactly one transaction, under the
cap-1 configuration: inserting a second transaction would make the size exceed
the cap. -/
def stCap1One : TxnState := (prepare_txn cfgCap1 TxnState.init 1 1 7 42 uidEx loadL1 0).2

/-- C5 counterexample: with cap 1 and the shard's partition map already of
size 1, preparing a new transaction WOULD make the size 2, exceeding the cap;
the claim demands TooManyTransactions, but the code checks only the size
before insertion with a strict comparison, returns OK and inserts. -/
theorem C5_counterexample :
    partition_shard_size cfgCap1 stCap1One 2 = 1 ∧
    cfgCap1.max_runnings_transactions_per_txn_map = 1 ∧
    (prepare_txn cfgCap1 stCap1One 1 2 7 42 uidEx loadL1 0).1 = Status.OK ∧
    partition_shard_size cfgCap1 (prepare_txn cfgCap1 stCap1One 1 2 7 42 uidEx loadL1 0).2 2
      = 2 := by
  decide

/-- C5 amended: prepare_txn returns TooManyTransactions exactly when the
idempotent committed-re-prepare early return does not apply and the size of the
shard's partition map BEFORE the insertion strictly exceeds (not: would come to
exceed) the configured maximum; in that case the state is left unchanged. -/
theorem C5_amended_too_many_transactions_guard
    (cfg : Config) (st : TxnState) (p t tid sh : Int) (uid : TabletUid)
    (load : PUniqueId) (now : Int) :
    ((prepare_txn cfg st p t tid sh uid load now).1 = Status.TooManyTransactions ↔
      (prepare_found_committed st (p, t) ⟨tid, sh, uid⟩ load = false ∧
       partition_shard_size cfg st t > cfg.max_runnings_transactions_per_txn_map)) ∧
    ((prepare_txn cfg st p t tid sh uid load now).1 = Status.TooManyTransactions →
      (prepare_txn cfg st p t tid sh uid load now).2 = st) := by
  unfold prepare_txn
  dsimp only
  by_cases hb : prepare_found_committed st (p, t) ⟨tid, sh, uid⟩ load = true
  · rw [if_pos hb]
    simp [hb]
  · rw [Bool.not_eq_true] at hb
    rw [if_neg (by simp [hb])]
    by_cases hsz : partition_shard_size cfg st t > cfg.max_runnings_transactions_per_txn_map
    · rw [if_pos hsz]
      simp [hb, hsz]
    · rw [if_neg hsz]
      simp [hb, hsz]

/-- Witness for the amended C5: in the size-3 cap-1 shard the guard fires and
leaves the state unchanged. -/
theorem C5_witness :
    (prepare_txn cfgCap1 stThreeCommitted 1 4 7 42 uidEx loadL1 0).1 =
      Status.TooManyTransactions ∧
    (prepare_txn cfgCap1 stThreeCommitted 1 4 7 42 uidEx loadL1 0).2 = stThreeCommitted := by
  have h := C5_amended_too_many_transactions_guard cfgCap1 stThreeCommitted 1 4 7 42 uidEx
    loadL1 0
  have h1 : (prepare_txn cfgCap1 stThreeCommitted 1 4 7 42 uidEx loadL1 0).1 =
      Status.TooManyTransactions := h.1.mpr (by decide)
  exact ⟨h1, h.2 h1⟩


/-- Upserting the very entry a key already holds, when the partition pair is
already recorded, changes nothing. -/
theorem upsert_self (st : TxnState) (key : TxnKey) (ti : TabletInfo) (li : TabletTxnInfo)
    (hfind : getEntry st key ti = some li)
    (hpm : key.1 ∈ (alFind st.partition_map key.2).getD []) :
    upsert_tablet_txn st key ti li = st := by
  unfold getEntry at hfind
  cases hf : alFind st.tablet_map key with
  | none =>
    rw [hf, Option.none_bind] at hfind
    exact absurd hfind Option.noConfusion
  | some inner =>
    rw [hf, Option.some_bind] at hfind
    unfold upsert_tablet_txn
    dsimp only
    have h1 : alInsert ((alFind st.tablet_map key).getD []) ti li = inner := by
      rw [hf, Option.getD_some]
      exact alInsert_self inner ti li hfind
    rw [h1, alInsert_self st.tablet_map key inner hf]
    have h2 : insert_txn_partition_map st.partition_map key.2 key.1 = st.partition_map := by
      unfold insert_txn_partition_map
      cases hq : alFind st.partition_map key.2 with
      | none =>
        rw [hq, Option.getD_none] at hpm
        exact absurd hpm (List.not_mem_nil key.1)
      | some s =>
        rw [hq, Option.getD_some] at hpm
        simp only [Option.getD_some]
        rw [if_pos hpm]
        exact alInsert_self st.partition_map key.2 s hq
    rw [h2]

/-- C6 counterexample: two consecutive prepare calls with identical arguments,
the second one a clock second later, leave the index in a different state: the
re-inserted entry's creation_time is reset to the later time, while the claim
demands the state after the first call, creation_time included. -/
theorem C6_counterexample :
    (prepare_txn cfgEx stPrepared 10 100 7 42 uidEx loadL1 1).2 ≠ stPrepared ∧
    getEntry (prepare_txn cfgEx stPrepared 10 100 7 42 uidEx loadL1 1).2 (10, 100) tiEx =
      some ⟨loadL1, none, 1⟩ ∧
    getEntry stPrepared (10, 100) tiEx = some ⟨loadL1, none, 0⟩ := by
  decide

/-- C6 amended: two consecutive prepare_txn calls with identical arguments
leave the index in exactly the state reached after the first call, provided the
clock has not advanced between them (the second call re-inserts the entry with
creation_time set to its own UnixSeconds reading, so with a later clock only
that field differs). -/
theorem C6_amended_prepare_idempotent_same_clock
    (cfg : Config) (st : TxnState) (p t tid sh : Int) (uid : TabletUid)
    (load : PUniqueId) (now : Int) :
    (prepare_txn cfg (prepare_txn cfg st p t tid sh uid load now).2
      p t tid sh uid load now).2 = (prepare_txn cfg st p t tid sh uid load now).2 := by
  by_cases hb : prepare_found_committed st (p, t) ⟨tid, sh, uid⟩ load = true
  · have h1 : prepare_txn cfg st p t tid sh uid load now = (Status.OK, st) := by
      unfold prepare_txn
      dsimp only
      rw [if_pos hb]
    simp only [h1]
  · rw [Bool.not_eq_true] at hb
    by_cases hsz : partition_shard_size cfg st t > cfg.max_runnings_transactions_per_txn_map
    · have h1 : prepare_txn cfg st p t tid sh uid load now = (Status.TooManyTransactions, st) := by
        unfold prepare_txn
        dsimp only
        rw [if_neg (by simp [hb]), if_pos hsz]
      simp only [h1]
    · have h1 : prepare_txn cfg st p t tid sh uid load now =
          (Status.OK, upsert_tablet_txn st (p, t) ⟨tid, sh, uid⟩
            { load_id := load, rowset := none, creation_time := now }) := by
        unfold prepare_txn
        dsimp only
        rw [if_neg (by simp [hb]), if_neg hsz]
      simp only [h1]
      have hb1 : prepare_found_committed
          (upsert_tablet_txn st (p, t) ⟨tid, sh, uid⟩
            { load_id := load, rowset := none, creation_time := now })
          (p, t) ⟨tid, sh, uid⟩ load = false := by
        unfold prepare_found_committed
        rw [getEntry_upsert, if_pos ⟨rfl, rfl⟩]
        simp
      by_cases hsz1 : partition_shard_size cfg
          (upsert_tablet_txn st (p, t) ⟨tid, sh, uid⟩
            { load_id := load, rowset := none, creation_time := now }) t >
          cfg.max_runnings_transactions_per_txn_map
      · unfold prepare_txn
        dsimp only
        rw [if_neg (by simp [hb1]), if_pos hsz1]
      · unfold prepare_txn
        dsimp only
        rw [if_neg (by simp [hb1]), if_neg hsz1]
        dsimp only
        apply upsert_self
        · rw [getEntry_upsert, if_pos ⟨rfl, rfl⟩]
        · show (p, t).1 ∈ (alFind (upsert_tablet_txn st (p, t) ⟨tid, sh, uid⟩
            { load_id := load, rowset := none, creation_time := now }).partition_map
            (p, t).2).getD []
          unfold upsert_tablet_txn
          dsimp only
          rw [mem_insert_txn_partition_map]
          exact Or.inl ⟨rfl, rfl⟩


/-- C7 counterexample: the entry created by prepare at time 0 exists when
commit runs at time 5; the upserted entry's creation_time is 5, not the
preserved 0 the claim demands (the C++ commit constructs a fresh TabletTxnInfo
from only the load id and the rowset, so the prior creation_time is lost). -/
theorem C7_counterexample :
    getEntry stPrepared (10, 100) tiEx = some ⟨loadL1, none, 0⟩ ∧
    (commit_txn stPrepared 10 100 7 42 uidEx loadL1 (some rowsetR1) false 5 true).1 =
      Status.OK ∧
    getEntry (commit_txn stPrepared 10 100 7 42 uidEx loadL1 (some rowsetR1) false 5 true).2
      (10, 100) tiEx = some ⟨loadL1, some rowsetR1, 5⟩ := by
  decide

/-- C7 amended: whenever commit_txn upserts an entry (the duplicate and
conflict early returns do not apply and the meta write is not reached or
succeeds), the stored entry's creation_time is the commit's own clock reading,
whether or not a prior entry existed. -/
theorem C7_amended_commit_resets_creation_time
    (st : TxnState) (p t tid sh : Int) (uid : TabletUid) (load : PUniqueId)
    (r : Rowset) (rec : Bool) (now : Int) (sv : Bool)
    (hp : 1 ≤ p) (ht : 1 ≤ t) (htid : 1 ≤ tid)
    (hdup : commit_dup st (p, t) ⟨tid, sh, uid⟩ load r = false)
    (hconf : commit_conflict st (p, t) ⟨tid, sh, uid⟩ load r = false)
    (hsv : rec = true ∨ sv = true) :
    getEntry (commit_txn st p t tid sh uid load (some r) rec now sv).2 (p, t)
      ⟨tid, sh, uid⟩ = some { load_id := load, rowset := some r, creation_time := now } := by
  have hvalid : ¬ (p < 1 ∨ t < 1 ∨ tid < 1) := by omega
  have hns : ¬ ((!rec && !sv) = true) := by
    rcases hsv with h | h <;> subst h <;> simp
  unfold commit_txn
  rw [if_neg hvalid]
  dsimp only
  rw [if_neg (by simp [hdup]), if_neg (by simp [hconf]), if_neg hns]
  dsimp only
  rw [getEntry_upsert, if_pos ⟨rfl, rfl⟩]

/-- Witness for the amended C7: committing over the time-0 prepared entry at
time 5 stores creation_time 5. -/
theorem C7_witness :
    getEntry (commit_txn stPrepared 10 100 7 42 uidEx loadL1 (some rowsetR1) false 5 true).2
      (10, 100) ⟨7, 42, uidEx⟩ =
      some { load_id := loadL1, rowset := some rowsetR1, creation_time := 5 } :=
  C7_amended_commit_resets_creation_time stPrepared 10 100 7 42 uidEx loadL1 rowsetR1
    false 5 true (by decide) (by decide) (by decide) (by decide) (by decide)
    (Or.inr rfl)

/-- C8 counterexample: running prepare; commit; publish where the publish-time
RowsetMetaManager::save fails (publish returns SaveFailed after make_visible)
reaches a state whose tablet_map still holds the entry, now carrying the
made-visible rowset with version.start = 5 > 0 — refuting the claim that no
reachable state stores a published rowset. -/
theorem C8_counterexample :
    ¬ no_published_entry (execOps cfgEx opsPublishSaveFail) := by
  intro h
  have h2 := h (10, 100) tiEx
    ⟨loadL1, some ⟨1, ⟨5, 5⟩, 0⟩, 1⟩ (⟨1, ⟨5, 5⟩, 0⟩ : Rowset) (by decide) (by decide)
  exact absurd h2 (by decide)

/-- C8 amended: in every state reachable by operation sequences whose inputs
are well-formed — every committed rowset is still unpublished on entry and
every publish's RowsetMetaManager::save succeeds — no entry of tablet_map
holds a rowset with version.start > 0.  The save-failure window (publish
mutates the shared rowset before persisting, returns SaveFailed and leaves the
entry) is the sole violation, exhibited by the counterexample. -/
theorem C8_amended_no_published_entry_reachable
    (cfg : Config) (ops : List Op) (hwf : ∀ op ∈ ops, op.wf_input = true) :
    no_published_entry (execOps cfg ops) := by
  unfold execOps
  exact no_published_execOps_from cfg ops TxnState.init hwf no_published_init

/-- Witness for the amended C8 on the concrete happy-path operation list. -/
theorem C8_witness : no_published_entry (execOps cfgEx opsHappyPath) :=
  C8_amended_no_published_entry_reachable cfgEx opsHappyPath (by decide)

/-- C9: after any sequence of prepare / commit / publish / rollback /
delete_txn / force_rollback operations completes, txn_partition_map[txn_id]
holds exactly the partition ids appearing in txn_tablet_map keys whose
transaction id is txn_id. -/
theorem C9_partition_map_matches_tablet_map (cfg : Config) (ops : List Op) :
    partition_map_consistent (execOps cfg ops) := by
  unfold execOps
  exact consistent_execOps_from cfg ops TxnState.init consistent_init

/-- Witness instance for C9 on the concrete happy-path operation list. -/
theorem C9_witness : partition_map_consistent (execOps cfgEx opsHappyPath) :=
  C9_partition_map_matches_tablet_map cfgEx opsHappyPath

/-- C10 counterexample: stThreeCommitted is reachable (three commits under the
cap-1 configuration) and holds a committed entry for (1, 1, T1) with load L1;
prepare with the different load id L2 returns TooManyTransactions — not OK —
and the committed entry is left in place, refuting the unconditional claim. -/
theorem C10_counterexample :
    getEntry stThreeCommitted (1, 1) tiEx = some ⟨loadL1, some rowsetR1, 0⟩ ∧
    (prepare_txn cfgCap1 stThreeCommitted 1 1 7 42 uidEx loadL2 9).1 =
      Status.TooManyTransactions ∧
    (prepare_txn cfgCap1 stThreeCommitted 1 1 7 42 uidEx loadL2 9).2 = stThreeCommitted := by
  decide

/-- C10 amended: for every state holding a committed entry for (TxnKey,
TabletInfo) and any load id different from the stored one, provided the
shard's partition map does not exceed the configured cap, prepare_txn returns
OK and replaces the entry with an uncommitted one carrying the new load id and
no rowset, so the committed rowset is no longer reachable from the index. -/
theorem C10_amended_prepare_replaces_committed_entry
    (cfg : Config) (st : TxnState) (p t tid sh : Int) (uid : TabletUid)
    (li : TabletTxnInfo) (r : Rowset) (load2 : PUniqueId) (now : Int)
    (hentry : getEntry st (p, t) ⟨tid, sh, uid⟩ = some li)
    (hrow : li.rowset = some r)
    (hload : li.load_id ≠ load2)
    (hsz : partition_shard_size cfg st t ≤ cfg.max_runnings_transactions_per_txn_map) :
    (prepare_txn cfg st p t tid sh uid load2 now).1 = Status.OK ∧
    getEntry (prepare_txn cfg st p t tid sh uid load2 now).2 (p, t) ⟨tid, sh, uid⟩ =
      some { load_id := load2, rowset := none, creation_time := now } := by
  have hfc : prepare_found_committed st (p, t) ⟨tid, sh, uid⟩ load2 = false := by
    unfold prepare_found_committed
    simp only [hentry]
    simp [hload]
  unfold prepare_txn
  dsimp only
  rw [if_neg (by simp [hfc]), if_neg (by omega)]
  exact ⟨rfl, by rw [getEntry_upsert, if_pos ⟨rfl, rfl⟩]⟩

/-- Witness for the amended C10: re-preparing the committed happy-path entry
with the different load id L2 under the large cap succeeds and leaves an
uncommitted entry. -/
theorem C10_witness :
    (prepare_txn cfgEx stCommitted 10 100 7 42 uidEx loadL2 9).1 = Status.OK ∧
    getEntry (prepare_txn cfgEx stCommitted 10 100 7 42 uidEx loadL2 9).2 (10, 100)
      ⟨7, 42, uidEx⟩ =
      some { load_id := loadL2, rowset := none, creation_time := 9 } :=
  C10_amended_prepare_replaces_committed_entry cfgEx stCommitted 10 100 7 42 uidEx
    ⟨loadL1, some rowsetR1, 1⟩ rowsetR1 loadL2 9
    (by decide) (by decide) (by decide) (by decide)

end DorisTxn
